import Mathlib

/-!
Shallow embedding of the CustomBorders plugin of the handsontable
repository (src/plugins/customBorders/customBorders.js), of the pure
border-model helpers it imports, and of the external collaborators it
drives (per-cell metadata store, overlay registry, DOM), with proofs
settling the specification's claims about it.

Conventions of the embedding:
- JS objects with fixed shape become structures; absent object
  properties become `none` of an `Option` field.
- The stateful collaborators of the plugin (cell-metadata store,
  walkontable overlay list, the DOM nodes the plugin touches, the
  per-instance `savedSettings` field) are gathered into one `HotState`
  record threaded through every operation.
- Each operation additionally appends an `Event` to a trace so that the
  ordering claims (which store write happens before which redraw
  request) can be stated.
- `rangeEach(a, b, f)` from helpers/number (not part of the excerpt)
  iterates `a..b` inclusively and is embedded as a fold over `jsRange`;
  `rangeEach(0, xs.length - 1, f)` indexing a list is embedded as a
  direct fold over that list.
-/

/-- Style of one border side: a width, a CSS color and a hidden flag.
Modelled from the spec: the border-model utilities module imported by
customBorders.js is not part of the excerpt; section 3 of the spec gives
SideStyle as a record of width, color and hidden, where a hidden side
renders nothing. -/
structure SideStyle where
  width : Nat
  color : String
  hidden : Bool
deriving DecidableEq, Repr

/-- Modelled from the spec: the cell-level default border record stored
under the descriptor's `border` field (the carrier of the spec's
cornerVisible flag); `setBorder` treats a descriptor whose `border`
field is missing as absent and rebuilds an empty descriptor. -/
structure HtBorderStyle where
  width : Nat
  color : String
  cornerVisible : Bool
deriving DecidableEq, Repr

/-- Cell coordinates, spec section 3. -/
structure CellCoords where
  row : Nat
  col : Nat
deriving DecidableEq, Repr

/-- Inclusive rectangular range, spec section 3 RangeSpec (`from` is a
Lean keyword, hence the field names `fromCell` and `toCell`). -/
structure RangeSpec where
  fromCell : CellCoords
  toCell : CellCoords
deriving DecidableEq, Repr

/-- Per-cell border descriptor, spec section 3 BorderDescriptor.  The
`extra` field models JS property assignment under a key other than the
four side names (`bordersMeta[place] = value` with an unrecognized
`place` string stores the value under that key). -/
structure Border where
  row : Nat
  col : Nat
  className : String
  border : Option HtBorderStyle
  top : SideStyle
  right : SideStyle
  bottom : SideStyle
  left : SideStyle
  extra : List (String × SideStyle) := []
deriving DecidableEq, Repr

/-- One entry of the declarative customBorders configuration array,
point form or range form (spec section 3 BorderConfigEntry).  A JS
object property that is not present is `none`; `row`/`col` default to 0
because range-form entries in JS simply lack those properties and never
read them. -/
structure ConfigEntry where
  row : Nat := 0
  col : Nat := 0
  range : Option RangeSpec := none
  top : Option SideStyle := none
  bottom : Option SideStyle := none
  left : Option SideStyle := none
  right : Option SideStyle := none
deriving DecidableEq, Repr

/-- Observable actions of the plugin on its collaborators, in program
order: a metadata write, a metadata removal, an overlay-registry
insertion or replacement, a DOM purge by class name, a render request
and a forced walkontable draw. -/
inductive Event
  | metaWrite (row col : Nat)
  | metaRemove (row col : Nat)
  | overlayUpsert (className : String)
  | domPurge (className : String)
  | render
  | draw
deriving DecidableEq, Repr

/-- The mutable world the plugin acts on: the `borders` entries of the
cell-metadata store, the walkontable selections (overlay registry), the
class names of border decoration elements currently in the DOM (non-TD
nodes, the ones removeBordersFromDom may delete), the class names of the
table's TD cells (matched by the blanket `td[class^="border"]` query,
never deleted), the plugin's `savedSettings` field, and the event
trace. -/
structure HotState where
  meta : Nat × Nat → Option Border
  selections : List Border
  borderDivs : List String
  tdClasses : List String
  savedSettings : Option (List ConfigEntry)
  events : List Event

/-- The value of the `customBorders` setting as the plugin's
reconciliation sees it: absent-or-false (plugin feature off), a truthy
non-array sentinel, or the declarative array. -/
inductive CustomBordersSetting
  | absent
  | sentinel
  | list (entries : List ConfigEntry)
deriving DecidableEq, Repr

/-- Modelled from the spec: `createClassName(row, col)` from
customBorders/utils is not in the excerpt; the spec (section 3) requires
a class name that is a deterministic function of the coordinates and is
prefixed with `border` (the blanket purge queries `td[class^="border"]`). -/
def createClassName (row col : Nat) : String :=
  "border_row" ++ toString row ++ "col" ++ toString col

/-- Modelled from the spec: `createSingleEmptyBorder` from
customBorders/utils; spec section 4.1 `singleEmptySide`, the hidden
style used to blank one side. -/
def createSingleEmptyBorder : SideStyle :=
  { width := 0, color := "", hidden := true }

/-- Modelled from the spec: `createDefaultCustomBorder` from
customBorders/utils; spec section 4.1 `defaultSideStyle`, the default
visible style (implementation-defined width and color). -/
def createDefaultCustomBorder : SideStyle :=
  { width := 1, color := "#000", hidden := false }

/-- Modelled from the spec: the default value of a descriptor's `border`
field as produced for a fresh descriptor. -/
def createDefaultHtBorder : HtBorderStyle :=
  { width := 1, color := "#000", cornerVisible := false }

/-- Modelled from the spec: `createEmptyBorders(row, col)` from
customBorders/utils; spec section 4.1 `emptyBorders`: all four sides set
to the hidden style, className derived from the coordinates. -/
def createEmptyBorders (row col : Nat) : Border :=
  { row := row
    col := col
    className := createClassName row col
    border := some createDefaultHtBorder
    top := createSingleEmptyBorder
    right := createSingleEmptyBorder
    bottom := createSingleEmptyBorder
    left := createSingleEmptyBorder
    extra := [] }

/-- Modelled from the spec: `extendDefaultBorder(defaultBorder,
customBorder)` from customBorders/utils; spec section 4.1
`mergeConfigIntoDescriptor`: for each of the four sides, if the config
entry explicitly sets that side, overwrite it; sides not mentioned are
left as they are in the descriptor argument. -/
def extendDefaultBorder (defaultBorder : Border) (customBorder : ConfigEntry) : Border :=
  { defaultBorder with
    top := customBorder.top.getD defaultBorder.top
    bottom := customBorder.bottom.getD defaultBorder.bottom
    left := customBorder.left.getD defaultBorder.left
    right := customBorder.right.getD defaultBorder.right }

/-- Helper for `jsRange`: the list of `n` consecutive naturals starting
at `lo`. -/
def jsRangeAux : Nat → Nat → List Nat
  | 0, _ => []
  | n + 1, lo => lo :: jsRangeAux n (lo + 1)

/-- Modelled from the spec: `rangeEach(lo, hi, f)` from helpers/number
iterates the indices `lo..hi` inclusive (nothing when `hi < lo`); the
iteration order used throughout the plugin. -/
def jsRange (lo hi : Nat) : List Nat :=
  jsRangeAux (hi + 1 - lo) lo

/-- Metadata Store read of the `borders` entry for a cell
(`this.hot.getCellMeta(row, col).borders`), spec section 6 contract. -/
def getCellMeta (st : HotState) (row col : Nat) : Option Border :=
  st.meta (row, col)

/-- Metadata Store write of the `borders` entry for a cell
(`this.hot.setCellMeta(row, col, borders, value)`), spec section 6
contract. -/
def setCellMeta (st : HotState) (row col : Nat) (border : Border) : HotState :=
  { st with
    meta := fun k => if k = (row, col) then some border else st.meta k
    events := st.events ++ [Event.metaWrite row col] }

/-- Metadata Store removal of the `borders` entry for a cell
(`this.hot.removeCellMeta(row, col, borders)`), spec section 6
contract. -/
def removeCellMeta (st : HotState) (row col : Nat) : HotState :=
  { st with
    meta := fun k => if k = (row, col) then none else st.meta k
    events := st.events ++ [Event.metaRemove row col] }

/-- Redraw request `this.hot.render()`. -/
def render (st : HotState) : HotState :=
  { st with events := st.events ++ [Event.render] }

/-- Forced walkontable draw `this.hot.view.wt.draw(true)`. -/
def wtDraw (st : HotState) : HotState :=
  { st with events := st.events ++ [Event.draw] }

/-- Embedding of `getSettingIndex(className)` (customBorders.js lines
130-138).  The method runs `rangeEach` over the selections with an arrow
function that executes `return index` when the registered className
matches.  That `return` exits only the arrow function: `rangeEach` tests
the iteratee's result against the literal `false` and a number is never
strictly equal to `false`, so the scan always completes, its results are
discarded, and control falls through to the method's own `return -1`. -/
def getSettingIndex (selections : List Border) (className : String) : Int :=
  let iterateeResults : List (Option Int) :=
    (List.range selections.length).map fun index =>
      if (selections.get? index).map Border.className = some className then
        some (Int.ofNat index)
      else
        none
  let _ := iterateeResults; (-1 : Int)

/-- Embedding of `insertBorderIntoSettings(border)` (lines 145-158): a
Selection wrapping the border object is stored in the walkontable
selections list, replacing the entry at `getSettingIndex` when that
index is non-negative, appended otherwise. -/
def insertBorderIntoSettings (st : HotState) (border : Border) : HotState :=
  let index := getSettingIndex st.selections border.className
  let selections :=
    if 0 ≤ index then st.selections.set index.toNat border
    else st.selections ++ [border]
  { st with
    selections := selections
    events := st.events ++ [Event.overlayUpsert border.className] }

/-- Embedding of `prepareBorderFromCustomAdded(row, col, borderObj)`
(lines 167-174): build a fresh empty descriptor, extend it with the
config entry, store it in the metadata and in the overlay registry. -/
def prepareBorderFromCustomAdded (st : HotState) (row col : Nat) (borderObj : ConfigEntry) :
    HotState :=
  let border := extendDefaultBorder (createEmptyBorders row col) borderObj
  let st1 := setCellMeta st row col border
  insertBorderIntoSettings st1 border

/-- Conditional side copy used by the range expansion: the config
entry's value when the property is present (`hasOwnProperty`), the
descriptor's current value otherwise. -/
def sideOrDefault (x : Option SideStyle) (d : SideStyle) : SideStyle :=
  match x with
  | some v => v
  | none => d

/-- The per-cell computation of `prepareBorderFromCustomAddedRange`
(lines 186-219): a fresh empty descriptor and a counter `add`; each of
the four boundary tests increments `add`, and additionally copies the
corresponding side from the config entry when that property is present
(`hasOwnProperty`). -/
def rangeCellBorder (rowObj : ConfigEntry) (range : RangeSpec) (rowIndex colIndex : Nat) :
    Nat × Border :=
  let acc0 : Nat × Border := (0, createEmptyBorders rowIndex colIndex)
  let acc1 :=
    if rowIndex = range.fromCell.row then
      (acc0.1 + 1, { acc0.2 with top := sideOrDefault rowObj.top acc0.2.top })
    else acc0
  let acc2 :=
    if rowIndex = range.toCell.row then
      (acc1.1 + 1, { acc1.2 with bottom := sideOrDefault rowObj.bottom acc1.2.bottom })
    else acc1
  let acc3 :=
    if colIndex = range.fromCell.col then
      (acc2.1 + 1, { acc2.2 with left := sideOrDefault rowObj.left acc2.2.left })
    else acc2
  let acc4 :=
    if colIndex = range.toCell.col then
      (acc3.1 + 1, { acc3.2 with right := sideOrDefault rowObj.right acc3.2.right })
    else acc3
  acc4

/-- The body of the nested `rangeEach` loops of
`prepareBorderFromCustomAddedRange` (lines 184-225): when `add > 0` the
computed descriptor is written to the metadata and the overlay registry,
otherwise the cell is untouched. -/
def prepareBorderFromCustomAddedRangeCell (rowObj : ConfigEntry) (range : RangeSpec)
    (st : HotState) (rowIndex colIndex : Nat) : HotState :=
  let acc := rangeCellBorder rowObj range rowIndex colIndex
  if 0 < acc.1 then
    insertBorderIntoSettings (setCellMeta st rowIndex colIndex acc.2) acc.2
  else st

/-- Embedding of `prepareBorderFromCustomAddedRange(rowObj)` (lines
181-227): nested inclusive iteration, rows outer and columns inner. -/
def prepareBorderFromCustomAddedRange (st : HotState) (rowObj : ConfigEntry) : HotState :=
  match rowObj.range with
  | none => st
  | some range =>
    (jsRange range.fromCell.row range.toCell.row).foldl
      (fun s1 rowIndex =>
        (jsRange range.fromCell.col range.toCell.col).foldl
          (fun s2 colIndex =>
            prepareBorderFromCustomAddedRangeCell rowObj range s2 rowIndex colIndex)
          s1)
      st

/-- Embedding of `removeBordersFromDom(borderClassName)` (lines
234-248): every rendered node carrying the class that is not a TD has
its parent removed; the `borderDivs` component holds exactly those
removable decoration nodes' class names. -/
def removeBordersFromDom (st : HotState) (borderClassName : String) : HotState :=
  { st with
    borderDivs := st.borderDivs.filter (fun cn => cn ≠ borderClassName)
    events := st.events ++ [Event.domPurge borderClassName] }

/-- Embedding of `removeAllBorders(row, col)` (lines 256-261): purge the
cell's DOM decorations and remove its `borders` metadata entry. -/
def removeAllBorders (st : HotState) (row col : Nat) : HotState :=
  let borderClassName := createClassName row col
  let st1 := removeBordersFromDom st borderClassName
  removeCellMeta st1 row col

/-- JS property assignment `bordersMeta[place] = value`: one of the four
side fields when `place` names a side, otherwise a property stored under
the given key. -/
def setBorderPlace (b : Border) (place : String) (value : SideStyle) : Border :=
  if place = "top" then { b with top := value }
  else if place = "bottom" then { b with bottom := value }
  else if place = "left" then { b with left := value }
  else if place = "right" then { b with right := value }
  else { b with extra := (place, value) :: b.extra.filter (fun p => p.1 ≠ place) }

/-- Embedding of `setBorder(row, col, place, remove)` (lines 271-291):
read the stored descriptor (rebuilding an empty one when absent or when
its `border` field is missing), assign the hidden or the default style
under `place`, write the metadata back, purge the cell's DOM
decorations, upsert the overlay entry and request a render. -/
def setBorder (st : HotState) (row col : Nat) (place : String) (remove : Bool) : HotState :=
  let bordersMeta :=
    match getCellMeta st row col with
    | none => createEmptyBorders row col
    | some m => if m.border = none then createEmptyBorders row col else m
  let value := if remove then createSingleEmptyBorder else createDefaultCustomBorder
  let bordersMeta1 := setBorderPlace bordersMeta place value
  let st1 := setCellMeta st row col bordersMeta1
  let st2 := removeBordersFromDom st1 (createClassName row col)
  let st3 := insertBorderIntoSettings st2 bordersMeta1
  render st3

/-- Embedding of `prepareBorder(range, place, remove)` (lines 300-346).
A single-cell range dispatches to `removeAllBorders` or `setBorder`; a
multi-cell range switches on `place`.  The `right`, `bottom` and `left`
cases of the source call `setBorder` with only three arguments, so the
JS `remove` parameter is `undefined` there, which the `if (remove)` test
treats as false: those calls are embedded with the literal `false`. -/
def prepareBorder (st : HotState) (range : RangeSpec) (place : String) (remove : Bool) :
    HotState :=
  if range.fromCell.row = range.toCell.row ∧ range.fromCell.col = range.toCell.col then
    if place = "noBorders" then
      removeAllBorders st range.fromCell.row range.fromCell.col
    else
      setBorder st range.fromCell.row range.fromCell.col place remove
  else if place = "noBorders" then
    (jsRange range.fromCell.col range.toCell.col).foldl
      (fun s1 colIndex =>
        (jsRange range.fromCell.row range.toCell.row).foldl
          (fun s2 rowIndex => removeAllBorders s2 rowIndex colIndex)
          s1)
      st
  else if place = "top" then
    (jsRange range.fromCell.col range.toCell.col).foldl
      (fun s topCol => setBorder s range.fromCell.row topCol place remove)
      st
  else if place = "right" then
    (jsRange range.fromCell.row range.toCell.row).foldl
      (fun s rowRight => setBorder s rowRight range.toCell.col place false)
      st
  else if place = "bottom" then
    (jsRange range.fromCell.col range.toCell.col).foldl
      (fun s bottomCol => setBorder s range.toCell.row bottomCol place false)
      st
  else if place = "left" then
    (jsRange range.fromCell.row range.toCell.row).foldl
      (fun s rowLeft => setBorder s rowLeft range.fromCell.col place false)
      st
  else st

/-- Embedding of `createCustomBorders(customBorders)` (lines 354-366):
each entry is expanded, range entries through the range path and the
rest through the point path, then one render and one forced draw are
requested. -/
def createCustomBorders (st : HotState) (customBorders : List ConfigEntry) : HotState :=
  let st1 := customBorders.foldl
    (fun s entry =>
      match entry.range with
      | some _ => prepareBorderFromCustomAddedRange s entry
      | none => prepareBorderFromCustomAdded s entry.row entry.col entry)
    st
  wtDraw (render st1)

/-- The blanket DOM cleanup at the top of `setsBordersSettings` (lines
407-411): every TD whose class string starts with `border` has
`removeBordersFromDom` run on its class string. -/
def purgeTableBorders (st : HotState) : HotState :=
  (st.tdClasses.filter (fun cn => String.startsWith cn "border")).foldl
    (fun s cn => removeBordersFromDom s cn) st

/-- Embedding of `setsBordersSettings()` (lines 405-424): blanket DOM
purge first; then, when the `customBorders` setting is truthy, an array
value is remembered in `savedSettings` and applied, and a non-array
truthy sentinel applies the remembered list when one exists.  Applying
the sentinel itself (`createCustomBorders` on a non-array value) runs
`rangeEach(0, NaN)`, which iterates zero times, so only the final render
and draw happen. -/
def setsBordersSettings (st : HotState) (customBorders : CustomBordersSetting) : HotState :=
  let st1 := purgeTableBorders st
  match customBorders with
  | CustomBordersSetting.absent => st1
  | CustomBordersSetting.list entries =>
    createCustomBorders { st1 with savedSettings := some entries } entries
  | CustomBordersSetting.sentinel =>
    match st1.savedSettings with
    | some saved => createCustomBorders st1 saved
    | none => wtDraw (render st1)

/-- The empty world: no metadata, no overlays, no DOM nodes, no saved
settings, empty trace. -/
def emptyHot : HotState :=
  { meta := fun _ => none
    selections := []
    borderDivs := []
    tdClasses := []
    savedSettings := none
    events := [] }

section FoldLemmas

variable {α β : Type}

/-- A fold preserves an observation `g` of the state when every step
does. -/
theorem foldl_g_preserve (g : HotState → β) (f : HotState → α → HotState)
    (l : List α) (st : HotState)
    (h : ∀ s x, x ∈ l → g (f s x) = g s) :
    g (l.foldl f st) = g st := by
  induction l generalizing st with
  | nil => rfl
  | cons a t ih =>
    rw [List.foldl_cons, ih (f st a) (fun s x hx => h s x (List.mem_cons_of_mem _ hx)),
      h st a (List.mem_cons_self _ _)]

/-- Once the observation `g` holds the value `v`, it keeps it through a
fold whose steps either preserve `g` or reset it to `v`. -/
theorem foldl_g_keep (g : HotState → β) (f : HotState → α → HotState)
    (l : List α) (st : HotState) (x : α) (v : β)
    (hw : ∀ s, g (f s x) = v)
    (hp : ∀ s y, y ∈ l → y ≠ x → g (f s y) = g s)
    (h0 : g st = v) :
    g (l.foldl f st) = v := by
  induction l generalizing st with
  | nil => exact h0
  | cons a t ih =>
    rw [List.foldl_cons]
    by_cases hax : a = x
    · exact ih (f st a) (fun s y hy hyx => hp s y (List.mem_cons_of_mem _ hy) hyx)
        (hax ▸ hw st)
    · exact ih (f st a) (fun s y hy hyx => hp s y (List.mem_cons_of_mem _ hy) hyx)
        (by rw [hp st a (List.mem_cons_self _ _) hax]; exact h0)

/-- A fold whose step at `x` writes the state-independent value `v` into
the observation `g` and whose other steps preserve `g` ends with
`g = v`, provided `x` occurs in the list. -/
theorem foldl_g_once (g : HotState → β) (f : HotState → α → HotState)
    (l : List α) (st : HotState) (x : α) (v : β)
    (hx : x ∈ l)
    (hw : ∀ s, g (f s x) = v)
    (hp : ∀ s y, y ∈ l → y ≠ x → g (f s y) = g s) :
    g (l.foldl f st) = v := by
  induction l generalizing st with
  | nil => cases hx
  | cons a t ih =>
    rw [List.foldl_cons]
    by_cases hax : a = x
    · exact foldl_g_keep g f t (f st a) x v hw
        (fun s y hy hyx => hp s y (List.mem_cons_of_mem _ hy) hyx) (hax ▸ hw st)
    · have hxt : x ∈ t := by
        rcases List.mem_cons.mp hx with h | h
        · exact absurd h.symm hax
        · exact h
      exact ih (f st a) hxt (fun s y hy hyx => hp s y (List.mem_cons_of_mem _ hy) hyx)

/-- A fold appends to the event trace; if every step appends only
render-free and draw-free events, so does the whole fold. -/
theorem foldl_events_extend (f : HotState → α → HotState) (l : List α) (st : HotState)
    (h : ∀ s x, x ∈ l → ∃ e, (f s x).events = s.events ++ e ∧
      Event.render ∉ e ∧ Event.draw ∉ e) :
    ∃ e, (l.foldl f st).events = st.events ++ e ∧ Event.render ∉ e ∧ Event.draw ∉ e := by
  induction l generalizing st with
  | nil => exact ⟨[], by simp⟩
  | cons a t ih =>
    obtain ⟨e1, he1, hr1, hd1⟩ := h st a (List.mem_cons_self _ _)
    obtain ⟨e2, he2, hr2, hd2⟩ := ih (f st a)
      (fun s x hx => h s x (List.mem_cons_of_mem _ hx))
    refine ⟨e1 ++ e2, ?_, ?_, ?_⟩
    · rw [List.foldl_cons, he2, he1, List.append_assoc]
    · simp [List.mem_append, hr1, hr2]
    · simp [List.mem_append, hd1, hd2]

end FoldLemmas

/-- Membership in the fuel-based range list. -/
theorem mem_jsRangeAux (n : Nat) : ∀ lo x : Nat, x ∈ jsRangeAux n lo ↔ lo ≤ x ∧ x < lo + n := by
  induction n with
  | zero => intro lo x; simp [jsRangeAux]
  | succ k ih =>
    intro lo x
    simp [jsRangeAux, ih (lo + 1) x]
    omega

/-- Membership in the inclusive iteration range of `rangeEach`. -/
theorem mem_jsRange (lo hi x : Nat) : x ∈ jsRange lo hi ↔ lo ≤ x ∧ x ≤ hi := by
  rw [jsRange, mem_jsRangeAux]
  omega

/-- Length of the fuel-based range list. -/
theorem length_jsRangeAux (n : Nat) : ∀ lo : Nat, (jsRangeAux n lo).length = n := by
  induction n with
  | zero => intro lo; rfl
  | succ k ih => intro lo; simp [jsRangeAux, ih (lo + 1)]

/-- Length of the inclusive iteration range of `rangeEach`. -/
theorem length_jsRange (lo hi : Nat) : (jsRange lo hi).length = hi + 1 - lo := by
  rw [jsRange, length_jsRangeAux]

/-- The callback returns of `getSettingIndex` are swallowed, so the
method's result is always `-1`. -/
theorem getSettingIndex_eq_neg_one (selections : List Border) (className : String) :
    getSettingIndex selections className = -1 := rfl

/-- Because `getSettingIndex` always yields `-1`, every overlay
insertion appends. -/
theorem insertBorderIntoSettings_selections (st : HotState) (b : Border) :
    (insertBorderIntoSettings st b).selections = st.selections ++ [b] := by
  simp [insertBorderIntoSettings, getSettingIndex_eq_neg_one]

theorem insertBorderIntoSettings_meta (st : HotState) (b : Border) :
    (insertBorderIntoSettings st b).meta = st.meta := rfl

theorem insertBorderIntoSettings_events (st : HotState) (b : Border) :
    (insertBorderIntoSettings st b).events = st.events ++ [Event.overlayUpsert b.className] :=
  rfl

theorem getCellMeta_setCellMeta_self (st : HotState) (row col : Nat) (b : Border) :
    getCellMeta (setCellMeta st row col b) row col = some b := by
  simp [getCellMeta, setCellMeta]

theorem getCellMeta_setCellMeta_other (st : HotState) (row col r c : Nat) (b : Border)
    (h : ¬(r = row ∧ c = col)) :
    getCellMeta (setCellMeta st row col b) r c = getCellMeta st r c := by
  simp only [getCellMeta, setCellMeta]
  rw [if_neg]
  simp [Prod.ext_iff]
  exact fun h1 h2 => h ⟨h1, h2⟩

/-- How many boundary conditions a cell matches is positive exactly on
the boundary of the rectangle. -/
theorem rangeCellBorder_fst_pos (rowObj : ConfigEntry) (range : RangeSpec)
    (i j : Nat) :
    0 < (rangeCellBorder rowObj range i j).1 ↔
      (i = range.fromCell.row ∨ i = range.toCell.row ∨
        j = range.fromCell.col ∨ j = range.toCell.col) := by
  simp only [rangeCellBorder]
  split_ifs <;> simp_all

theorem rangeCellBorder_top (rowObj : ConfigEntry) (range : RangeSpec) (i j : Nat) :
    (rangeCellBorder rowObj range i j).2.top =
      if i = range.fromCell.row then sideOrDefault rowObj.top createSingleEmptyBorder
      else createSingleEmptyBorder := by
  simp only [rangeCellBorder]
  split_ifs <;> simp_all [createEmptyBorders]

theorem rangeCellBorder_bottom (rowObj : ConfigEntry) (range : RangeSpec) (i j : Nat) :
    (rangeCellBorder rowObj range i j).2.bottom =
      if i = range.toCell.row then sideOrDefault rowObj.bottom createSingleEmptyBorder
      else createSingleEmptyBorder := by
  simp only [rangeCellBorder]
  split_ifs <;> simp_all [createEmptyBorders]

theorem rangeCellBorder_left (rowObj : ConfigEntry) (range : RangeSpec) (i j : Nat) :
    (rangeCellBorder rowObj range i j).2.left =
      if j = range.fromCell.col then sideOrDefault rowObj.left createSingleEmptyBorder
      else createSingleEmptyBorder := by
  simp only [rangeCellBorder]
  split_ifs <;> simp_all [createEmptyBorders]

theorem rangeCellBorder_right (rowObj : ConfigEntry) (range : RangeSpec) (i j : Nat) :
    (rangeCellBorder rowObj range i j).2.right =
      if j = range.toCell.col then sideOrDefault rowObj.right createSingleEmptyBorder
      else createSingleEmptyBorder := by
  simp only [rangeCellBorder]
  split_ifs <;> simp_all [createEmptyBorders]

/-- A range-expansion step leaves every other cell's metadata alone. -/
theorem rangeCell_meta_other (rowObj : ConfigEntry) (range : RangeSpec)
    (st : HotState) (i j r c : Nat) (h : ¬(r = i ∧ c = j)) :
    getCellMeta (prepareBorderFromCustomAddedRangeCell rowObj range st i j) r c =
      getCellMeta st r c := by
  simp only [prepareBorderFromCustomAddedRangeCell]
  split
  · rw [getCellMeta, insertBorderIntoSettings_meta, ← getCellMeta,
      getCellMeta_setCellMeta_other _ _ _ _ _ _ h]
  · rfl

/-- A range-expansion step writes the computed descriptor at its own
cell exactly when the cell is on the boundary. -/
theorem rangeCell_meta_self (rowObj : ConfigEntry) (range : RangeSpec)
    (st : HotState) (i j : Nat) :
    getCellMeta (prepareBorderFromCustomAddedRangeCell rowObj range st i j) i j =
      if 0 < (rangeCellBorder rowObj range i j).1 then
        some (rangeCellBorder rowObj range i j).2
      else getCellMeta st i j := by
  simp only [prepareBorderFromCustomAddedRangeCell]
  split
  · rw [getCellMeta, insertBorderIntoSettings_meta, ← getCellMeta,
      getCellMeta_setCellMeta_self]
  · rfl

/-- Master lemma for the range path: after
`prepareBorderFromCustomAddedRange`, a cell inside the rectangle and on
its boundary holds the computed descriptor, and every other cell is
untouched. -/
theorem prepareRange_meta (st : HotState) (rowObj : ConfigEntry) (range : RangeSpec)
    (r c : Nat) (hrg : rowObj.range = some range) :
    getCellMeta (prepareBorderFromCustomAddedRange st rowObj) r c =
      if (range.fromCell.row ≤ r ∧ r ≤ range.toCell.row ∧
          range.fromCell.col ≤ c ∧ c ≤ range.toCell.col) ∧
        (r = range.fromCell.row ∨ r = range.toCell.row ∨
          c = range.fromCell.col ∨ c = range.toCell.col) then
        some (rangeCellBorder rowObj range r c).2
      else getCellMeta st r c := by
  unfold prepareBorderFromCustomAddedRange
  rw [hrg]
  by_cases hcond : (range.fromCell.row ≤ r ∧ r ≤ range.toCell.row ∧
      range.fromCell.col ≤ c ∧ c ≤ range.toCell.col) ∧
    (r = range.fromCell.row ∨ r = range.toCell.row ∨
      c = range.fromCell.col ∨ c = range.toCell.col)
  · rw [if_pos hcond]
    obtain ⟨⟨h1, h2, h3, h4⟩, hb⟩ := hcond
    refine foldl_g_once (fun s => getCellMeta s r c) _ _ st r _
      ((mem_jsRange _ _ _).mpr ⟨h1, h2⟩)
      (fun s => ?_)
      (fun s y _ hy => foldl_g_preserve (fun s => getCellMeta s r c) _ _ s
        (fun s2 z _ => rangeCell_meta_other _ _ _ _ _ _ _ (fun hc => hy hc.1.symm)))
    refine foldl_g_once (fun s => getCellMeta s r c) _ _ s c _
      ((mem_jsRange _ _ _).mpr ⟨h3, h4⟩)
      (fun s2 => ?_)
      (fun s2 y _ hy => rangeCell_meta_other _ _ _ _ _ _ _ (fun hc => hy hc.2.symm))
    show getCellMeta (prepareBorderFromCustomAddedRangeCell rowObj range s2 r c) r c =
      some (rangeCellBorder rowObj range r c).2
    rw [rangeCell_meta_self, if_pos ((rangeCellBorder_fst_pos _ _ _ _).mpr hb)]
  · rw [if_neg hcond]
    refine foldl_g_preserve (fun s => getCellMeta s r c) _ _ st (fun s i hi => ?_)
    refine foldl_g_preserve (fun s => getCellMeta s r c) _ _ s (fun s2 j hj => ?_)
    by_cases hij : r = i ∧ c = j
    · obtain ⟨hri, hcj⟩ := hij
      have hnb : ¬(0 < (rangeCellBorder rowObj range i j).1) := by
        rw [rangeCellBorder_fst_pos]
        intro hb
        refine hcond ⟨⟨?_, ?_, ?_, ?_⟩, ?_⟩
        · exact hri ▸ ((mem_jsRange _ _ _).mp hi).1
        · exact hri ▸ ((mem_jsRange _ _ _).mp hi).2
        · exact hcj ▸ ((mem_jsRange _ _ _).mp hj).1
        · exact hcj ▸ ((mem_jsRange _ _ _).mp hj).2
        · rw [hri, hcj]; exact hb
      rw [hri, hcj]
      show getCellMeta (prepareBorderFromCustomAddedRangeCell rowObj range s2 i j) i j =
        getCellMeta s2 i j
      rw [rangeCell_meta_self, if_neg hnb]
    · exact rangeCell_meta_other _ _ _ _ _ _ _ hij

/-- Number of render requests in a trace. -/
def countRender (l : List Event) : Nat :=
  (l.filter (fun e => e = Event.render)).length

theorem countRender_append (a b : List Event) :
    countRender (a ++ b) = countRender a + countRender b := by
  simp [countRender]

/-- Each `setBorder` call issues exactly one render request. -/
theorem countRender_setBorder (st : HotState) (row col : Nat) (place : String)
    (remove : Bool) :
    countRender (setBorder st row col place remove).events = countRender st.events + 1 := by
  simp only [setBorder, render, insertBorderIntoSettings, removeBordersFromDom, setCellMeta]
  simp [countRender_append, countRender]

/-- A `setBorder` call always stores a descriptor at its own cell. -/
theorem setBorder_meta_self (st : HotState) (row col : Nat) (place : String)
    (remove : Bool) :
    getCellMeta (setBorder st row col place remove) row col =
      some (setBorderPlace
        (match getCellMeta st row col with
          | none => createEmptyBorders row col
          | some m => if m.border = none then createEmptyBorders row col else m)
        place
        (if remove then createSingleEmptyBorder else createDefaultCustomBorder)) := by
  simp [setBorder, render, getCellMeta, insertBorderIntoSettings, removeBordersFromDom,
    setCellMeta]

/-- A `setBorder` call does not touch any other cell's metadata. -/
theorem setBorder_meta_other (st : HotState) (row col : Nat) (place : String)
    (remove : Bool) (r c : Nat) (h : ¬(r = row ∧ c = col)) :
    getCellMeta (setBorder st row col place remove) r c = getCellMeta st r c := by
  simp only [setBorder, render, getCellMeta, insertBorderIntoSettings, removeBordersFromDom,
    setCellMeta]
  rw [if_neg (fun hp => h ⟨congrArg Prod.fst hp, congrArg Prod.snd hp⟩)]

/-- A `setBorder` with `place = top` sets the stored descriptor's top
side to the hidden style when `remove` holds and to the default visible
style otherwise, regardless of the prior state. -/
theorem setBorder_top_self (st : HotState) (row col : Nat) (remove : Bool) :
    (getCellMeta (setBorder st row col "top" remove) row col).map Border.top =
      some (if remove then createSingleEmptyBorder else createDefaultCustomBorder) := by
  rw [setBorder_meta_self]
  simp [setBorderPlace]

theorem setBorder_savedSettings (st : HotState) (row col : Nat) (place : String)
    (remove : Bool) :
    (setBorder st row col place remove).savedSettings = st.savedSettings := rfl

/-- The point path of the declarative configuration appends exactly a
metadata write and an overlay upsert to the trace. -/
theorem prepareBorderFromCustomAdded_events (st : HotState) (row col : Nat)
    (borderObj : ConfigEntry) :
    (prepareBorderFromCustomAdded st row col borderObj).events =
      st.events ++ [Event.metaWrite row col,
        Event.overlayUpsert (extendDefaultBorder (createEmptyBorders row col) borderObj).className] := by
  simp only [prepareBorderFromCustomAdded, insertBorderIntoSettings, setCellMeta]
  simp

/-- The range path appends only metadata writes and overlay upserts to
the trace: no render, no draw. -/
theorem prepareBorderFromCustomAddedRange_events (st : HotState) (rowObj : ConfigEntry) :
    ∃ e, (prepareBorderFromCustomAddedRange st rowObj).events = st.events ++ e ∧
      Event.render ∉ e ∧ Event.draw ∉ e := by
  unfold prepareBorderFromCustomAddedRange
  cases rowObj.range with
  | none => exact ⟨[], by simp⟩
  | some range =>
    refine foldl_events_extend _ _ st (fun s i _ => ?_)
    refine foldl_events_extend _ _ s (fun s2 j _ => ?_)
    simp only [prepareBorderFromCustomAddedRangeCell]
    split
    · refine ⟨[Event.metaWrite i j,
        Event.overlayUpsert (rangeCellBorder rowObj range i j).2.className],
        ?_, by simp, by simp⟩
      simp [insertBorderIntoSettings, setCellMeta]
    · exact ⟨[], by simp⟩

/-- The config-entry dispatch of `createCustomBorders` appends only
metadata writes and overlay upserts. -/
theorem createCustomBorders_body_events (st : HotState) (l : List ConfigEntry) :
    ∃ e, (l.foldl
        (fun s entry =>
          match entry.range with
          | some _ => prepareBorderFromCustomAddedRange s entry
          | none => prepareBorderFromCustomAdded s entry.row entry.col entry)
        st).events = st.events ++ e ∧ Event.render ∉ e ∧ Event.draw ∉ e := by
  refine foldl_events_extend _ _ st (fun s entry _ => ?_)
  cases hrg : entry.range with
  | none =>
    refine ⟨[Event.metaWrite entry.row entry.col,
      Event.overlayUpsert
        (extendDefaultBorder (createEmptyBorders entry.row entry.col) entry).className],
      ?_, by simp, by simp⟩
    simp only [hrg]
    exact prepareBorderFromCustomAdded_events s entry.row entry.col entry
  | some range =>
    obtain ⟨e, he, hr, hd⟩ := prepareBorderFromCustomAddedRange_events s entry
    refine ⟨e, ?_, hr, hd⟩
    simp only [hrg]
    exact he

/-- A fold whose every step adds exactly one render adds as many renders
as the list is long. -/
theorem foldl_countRender {α : Type} (f : HotState → α → HotState) (l : List α)
    (st : HotState)
    (h : ∀ s x, x ∈ l → countRender (f s x).events = countRender s.events + 1) :
    countRender (l.foldl f st).events = countRender st.events + l.length := by
  induction l generalizing st with
  | nil => rfl
  | cons a t ih =>
    rw [List.foldl_cons, ih (f st a) (fun s x hx => h s x (List.mem_cons_of_mem _ hx)),
      h st a (List.mem_cons_self _ _), List.length_cons]
    omega

theorem removeBordersFromDom_meta (st : HotState) (cn : String) :
    (removeBordersFromDom st cn).meta = st.meta := rfl

theorem removeBordersFromDom_selections (st : HotState) (cn : String) :
    (removeBordersFromDom st cn).selections = st.selections := rfl

theorem removeBordersFromDom_savedSettings (st : HotState) (cn : String) :
    (removeBordersFromDom st cn).savedSettings = st.savedSettings := rfl

/-- The blanket purge of `setsBordersSettings` touches only the DOM and
the trace. -/
theorem purgeTableBorders_meta (st : HotState) :
    (purgeTableBorders st).meta = st.meta := by
  exact foldl_g_preserve HotState.meta _ _ st (fun s cn _ => rfl)

theorem purgeTableBorders_selections (st : HotState) :
    (purgeTableBorders st).selections = st.selections := by
  exact foldl_g_preserve HotState.selections _ _ st (fun s cn _ => rfl)

theorem purgeTableBorders_savedSettings (st : HotState) :
    (purgeTableBorders st).savedSettings = st.savedSettings := by
  exact foldl_g_preserve HotState.savedSettings _ _ st (fun s cn _ => rfl)

/-- The declarative path never touches the DOM: neither the point path
nor the range path calls `removeBordersFromDom`. -/
theorem prepareBorderFromCustomAddedRange_borderDivs (st : HotState) (rowObj : ConfigEntry) :
    (prepareBorderFromCustomAddedRange st rowObj).borderDivs = st.borderDivs := by
  unfold prepareBorderFromCustomAddedRange
  cases rowObj.range with
  | none => rfl
  | some range =>
    refine foldl_g_preserve HotState.borderDivs _ _ st (fun s i _ => ?_)
    refine foldl_g_preserve HotState.borderDivs _ _ s (fun s2 j _ => ?_)
    simp only [prepareBorderFromCustomAddedRangeCell]
    split
    · rfl
    · rfl

theorem createCustomBorders_borderDivs (st : HotState) (l : List ConfigEntry) :
    (createCustomBorders st l).borderDivs = st.borderDivs := by
  unfold createCustomBorders
  show (l.foldl _ st).borderDivs = st.borderDivs
  refine foldl_g_preserve HotState.borderDivs _ _ st (fun s entry _ => ?_)
  cases hrg : entry.range with
  | none => simp only [hrg]; rfl
  | some range =>
    simp only [hrg]
    exact prepareBorderFromCustomAddedRange_borderDivs s entry

/-- The declarative path never touches `savedSettings`. -/
theorem prepareBorderFromCustomAddedRange_savedSettings (st : HotState)
    (rowObj : ConfigEntry) :
    (prepareBorderFromCustomAddedRange st rowObj).savedSettings = st.savedSettings := by
  unfold prepareBorderFromCustomAddedRange
  cases rowObj.range with
  | none => rfl
  | some range =>
    refine foldl_g_preserve HotState.savedSettings _ _ st (fun s i _ => ?_)
    refine foldl_g_preserve HotState.savedSettings _ _ s (fun s2 j _ => ?_)
    simp only [prepareBorderFromCustomAddedRangeCell]
    split
    · rfl
    · rfl

theorem createCustomBorders_savedSettings (st : HotState) (l : List ConfigEntry) :
    (createCustomBorders st l).savedSettings = st.savedSettings := by
  unfold createCustomBorders
  show (wtDraw (render (l.foldl _ st))).savedSettings = st.savedSettings
  show (l.foldl _ st).savedSettings = st.savedSettings
  refine foldl_g_preserve HotState.savedSettings _ _ st (fun s entry _ => ?_)
  cases hrg : entry.range with
  | none => simp only [hrg]; rfl
  | some range =>
    simp only [hrg]
    exact prepareBorderFromCustomAddedRange_savedSettings s entry

/-- Updating a record field to the value it already has is the
identity. -/
theorem hotState_set_savedSettings (st : HotState) (v : Option (List ConfigEntry))
    (h : st.savedSettings = v) :
    { st with savedSettings := v } = st := by
  cases st
  simp_all

/-- Reduction of the multi-cell `top` action to its per-column fold. -/
theorem prepareBorder_top_multi (st : HotState) (range : RangeSpec) (remove : Bool)
    (h : ¬(range.fromCell.row = range.toCell.row ∧ range.fromCell.col = range.toCell.col)) :
    prepareBorder st range "top" remove =
      (jsRange range.fromCell.col range.toCell.col).foldl
        (fun s topCol => setBorder s range.fromCell.row topCol "top" remove) st := by
  unfold prepareBorder
  rw [if_neg h]
  rfl

/-- Reductions of the multi-cell `left`, `right` and `bottom` actions:
the source passes no fourth argument to `setBorder` there, so the
per-cell call runs with `remove` false whatever the action's flag was. -/
theorem prepareBorder_left_multi (st : HotState) (range : RangeSpec) (remove : Bool)
    (h : ¬(range.fromCell.row = range.toCell.row ∧ range.fromCell.col = range.toCell.col)) :
    prepareBorder st range "left" remove =
      (jsRange range.fromCell.row range.toCell.row).foldl
        (fun s rowLeft => setBorder s rowLeft range.fromCell.col "left" false) st := by
  unfold prepareBorder
  rw [if_neg h]
  rfl

theorem prepareBorder_right_multi (st : HotState) (range : RangeSpec) (remove : Bool)
    (h : ¬(range.fromCell.row = range.toCell.row ∧ range.fromCell.col = range.toCell.col)) :
    prepareBorder st range "right" remove =
      (jsRange range.fromCell.row range.toCell.row).foldl
        (fun s rowRight => setBorder s rowRight range.toCell.col "right" false) st := by
  unfold prepareBorder
  rw [if_neg h]
  rfl

theorem prepareBorder_bottom_multi (st : HotState) (range : RangeSpec) (remove : Bool)
    (h : ¬(range.fromCell.row = range.toCell.row ∧ range.fromCell.col = range.toCell.col)) :
    prepareBorder st range "bottom" remove =
      (jsRange range.fromCell.col range.toCell.col).foldl
        (fun s bottomCol => setBorder s range.toCell.row bottomCol "bottom" false) st := by
  unfold prepareBorder
  rw [if_neg h]
  rfl

/-- Reduction of the multi-cell `noBorders` action to its nested
per-cell fold of `removeAllBorders` (columns outer, rows inner). -/
theorem prepareBorder_noBorders_multi (st : HotState) (range : RangeSpec) (remove : Bool)
    (h : ¬(range.fromCell.row = range.toCell.row ∧ range.fromCell.col = range.toCell.col)) :
    prepareBorder st range "noBorders" remove =
      (jsRange range.fromCell.col range.toCell.col).foldl
        (fun s1 colIndex =>
          (jsRange range.fromCell.row range.toCell.row).foldl
            (fun s2 rowIndex => removeAllBorders s2 rowIndex colIndex) s1)
        st := by
  unfold prepareBorder
  rw [if_neg h]
  rfl

/-- A `removeAllBorders` call issues no render request. -/
theorem countRender_removeAllBorders (st : HotState) (row col : Nat) :
    countRender (removeAllBorders st row col).events = countRender st.events := by
  simp [removeAllBorders, removeCellMeta, removeBordersFromDom, countRender]

/-- Closed form of the computed range descriptor for a cell of the top
row when the entry names only `top`. -/
theorem rangeCellBorder_top_only (cfg : ConfigEntry) (range : RangeSpec) (t : SideStyle)
    (i j : Nat) (htop : cfg.top = some t) (hbot : cfg.bottom = none)
    (hleft : cfg.left = none) (hright : cfg.right = none)
    (hi : i = range.fromCell.row) :
    (rangeCellBorder cfg range i j).2 = { createEmptyBorders i j with top := t } := by
  subst hi
  simp only [rangeCellBorder]
  split_ifs <;> simp_all [sideOrDefault, createEmptyBorders]

/-- Closed form of the computed range descriptor for a boundary cell
that gains none of the entry's named sides when the entry names only
`top` and the cell is not in the top row: all sides stay hidden. -/
theorem rangeCellBorder_unnamed (cfg : ConfigEntry) (range : RangeSpec) (i j : Nat)
    (hi : i ≠ range.fromCell.row) (hbot : cfg.bottom = none)
    (hleft : cfg.left = none) (hright : cfg.right = none) :
    (rangeCellBorder cfg range i j).2 = createEmptyBorders i j := by
  simp only [rangeCellBorder]
  split_ifs <;> simp_all [sideOrDefault, createEmptyBorders]

/-- Concrete input for claim C1: the spec's own end-to-end scenario, the
2x2 range from (0,0) to (1,1) carrying only `bottom`. -/
def c1Config : ConfigEntry :=
  { range := some { fromCell := { row := 0, col := 0 }, toCell := { row := 1, col := 1 } }
    bottom := some createDefaultCustomBorder }

/-- C1 counterexample: in the claim's own 2x2 scenario (range
(0,0)-(1,1) carrying only `bottom`), cell (0,0) starts with no
descriptor yet does receive one — with every side hidden — because the
code counts every boundary condition, not only the named sides.  The
claim's assertion that cells gaining no named side are left untouched is
false on the code. -/
theorem C1_counterexample :
    (getCellMeta (prepareBorderFromCustomAddedRange emptyHot c1Config) 0 0).isSome = true
    ∧ (getCellMeta (prepareBorderFromCustomAddedRange emptyHot c1Config) 0 0).map
        Border.bottom = some createSingleEmptyBorder
    ∧ (getCellMeta (prepareBorderFromCustomAddedRange emptyHot c1Config) 1 0).map
        Border.bottom = some createDefaultCustomBorder := by
  decide

/-- C1 (amended): for a range from (r0,c0) to (r1,c1) with r1 above r0
and c1 right of c0 carrying only `top`, the cells of row r0 receive a
descriptor gaining a top side and no other side; every other cell of
the rectangle's boundary (bottom row, left column, right column) also
receives a descriptor, with all four sides hidden; interior cells and
cells outside the rectangle are untouched. -/
theorem C1_amended (st : HotState) (cfg : ConfigEntry) (range : RangeSpec) (t : SideStyle)
    (r c : Nat)
    (hrg : cfg.range = some range)
    (hrow : range.fromCell.row < range.toCell.row)
    (hcol : range.fromCell.col < range.toCell.col)
    (htop : cfg.top = some t)
    (hbot : cfg.bottom = none) (hleft : cfg.left = none) (hright : cfg.right = none) :
    (r = range.fromCell.row → range.fromCell.col ≤ c → c ≤ range.toCell.col →
      getCellMeta (prepareBorderFromCustomAddedRange st cfg) r c =
        some { createEmptyBorders r c with top := t })
    ∧ (range.fromCell.row < r → r ≤ range.toCell.row →
        range.fromCell.col ≤ c → c ≤ range.toCell.col →
        getCellMeta (prepareBorderFromCustomAddedRange st cfg) r c =
          if r = range.toCell.row ∨ c = range.fromCell.col ∨ c = range.toCell.col then
            some (createEmptyBorders r c)
          else getCellMeta st r c)
    ∧ (¬(range.fromCell.row ≤ r ∧ r ≤ range.toCell.row ∧
          range.fromCell.col ≤ c ∧ c ≤ range.toCell.col) →
        getCellMeta (prepareBorderFromCustomAddedRange st cfg) r c = getCellMeta st r c) := by
  refine ⟨?_, ?_, ?_⟩
  · intro hr0 hc1 hc2
    rw [prepareRange_meta st cfg range r c hrg,
      if_pos ⟨⟨le_of_eq hr0.symm, hr0 ▸ le_of_lt hrow, hc1, hc2⟩, Or.inl hr0⟩,
      rangeCellBorder_top_only cfg range t r c htop hbot hleft hright hr0]
  · intro hlt hle hc1 hc2
    by_cases hb : r = range.toCell.row ∨ c = range.fromCell.col ∨ c = range.toCell.col
    · rw [if_pos hb, prepareRange_meta st cfg range r c hrg,
        if_pos ⟨⟨le_of_lt hlt, hle, hc1, hc2⟩, Or.inr hb⟩,
        rangeCellBorder_unnamed cfg range r c (ne_of_gt hlt) hbot hleft hright]
    · rw [if_neg hb, prepareRange_meta st cfg range r c hrg, if_neg]
      rintro ⟨-, hbd⟩
      rcases hbd with h | h
      · exact absurd h (ne_of_gt hlt)
      · exact hb h
  · intro hout
    rw [prepareRange_meta st cfg range r c hrg, if_neg (fun hcond => hout hcond.1)]

/-- Concrete input for the C1 witness: a 2x2 range carrying only `top`. -/
def c1TopConfig : ConfigEntry :=
  { range := some { fromCell := { row := 0, col := 0 }, toCell := { row := 1, col := 1 } }
    top := some createDefaultCustomBorder }

/-- Witness for C1 (amended) at the concrete 2x2 top-only range: a top
row cell gains exactly a top side, the bottom-left corner receives an
all-hidden descriptor, and a far-away cell is untouched. -/
theorem C1_witness :
    getCellMeta (prepareBorderFromCustomAddedRange emptyHot c1TopConfig) 0 1 =
      some { createEmptyBorders 0 1 with top := createDefaultCustomBorder }
    ∧ getCellMeta (prepareBorderFromCustomAddedRange emptyHot c1TopConfig) 1 0 =
        (if (1 : Nat) = 1 ∨ (0 : Nat) = 0 ∨ (0 : Nat) = 1 then
          some (createEmptyBorders 1 0)
        else getCellMeta emptyHot 1 0)
    ∧ getCellMeta (prepareBorderFromCustomAddedRange emptyHot c1TopConfig) 5 5 =
        getCellMeta emptyHot 5 5 := by
  refine ⟨?_, ?_, ?_⟩
  · exact (C1_amended emptyHot c1TopConfig
      { fromCell := { row := 0, col := 0 }, toCell := { row := 1, col := 1 } }
      createDefaultCustomBorder 0 1 rfl (by decide) (by decide) rfl rfl rfl rfl).1
      rfl (by decide) (by decide)
  · exact (C1_amended emptyHot c1TopConfig
      { fromCell := { row := 0, col := 0 }, toCell := { row := 1, col := 1 } }
      createDefaultCustomBorder 1 0 rfl (by decide) (by decide) rfl rfl rfl rfl).2.1
      (by decide) (by decide) (by decide) (by decide)
  · exact (C1_amended emptyHot c1TopConfig
      { fromCell := { row := 0, col := 0 }, toCell := { row := 1, col := 1 } }
      createDefaultCustomBorder 5 5 rfl (by decide) (by decide) rfl rfl rfl rfl).2.2
      (by decide)

/-- Concrete input for claim C2: a point entry for cell (0,0). -/
def c2Config : ConfigEntry :=
  { row := 0, col := 0, top := some createDefaultCustomBorder }

/-- C2: evaluation of the code at the failing input.  Inserting a
descriptor for cell (0,0) twice leaves two overlay entries with the
same registered className, because `getSettingIndex` always returns -1
(its iteratee's `return index` exits only the arrow function and
`rangeEach` discards the result), so `insertBorderIntoSettings` always
appends and never replaces in place. -/
theorem C2_failing_eval :
    ((prepareBorderFromCustomAdded (prepareBorderFromCustomAdded emptyHot 0 0 c2Config)
        0 0 c2Config).selections.map Border.className =
      [createClassName 0 0, createClassName 0 0])
    ∧ getSettingIndex
        (prepareBorderFromCustomAdded emptyHot 0 0 c2Config).selections
        (createClassName 0 0) = -1 := by
  decide

/-- C3: each named side of a range entry applies only to the cells on
that side's boundary of the rectangle (top with row = from.row, bottom
with row = to.row, left with col = from.col, right with col = to.col);
a corner cell matching two boundary conditions receives both
corresponding sides; interior cells matching no boundary condition get
no descriptor written. -/
theorem C3_theorem (st : HotState) (cfg : ConfigEntry) (range : RangeSpec) (r c : Nat)
    (hrg : cfg.range = some range)
    (h1 : range.fromCell.row ≤ r) (h2 : r ≤ range.toCell.row)
    (h3 : range.fromCell.col ≤ c) (h4 : c ≤ range.toCell.col) :
    (r ≠ range.fromCell.row ∧ r ≠ range.toCell.row ∧ c ≠ range.fromCell.col ∧
        c ≠ range.toCell.col →
      getCellMeta (prepareBorderFromCustomAddedRange st cfg) r c = getCellMeta st r c)
    ∧ ((r = range.fromCell.row ∨ r = range.toCell.row ∨ c = range.fromCell.col ∨
        c = range.toCell.col) →
      ∃ b, getCellMeta (prepareBorderFromCustomAddedRange st cfg) r c = some b
        ∧ b.top = (if r = range.fromCell.row then
            sideOrDefault cfg.top createSingleEmptyBorder else createSingleEmptyBorder)
        ∧ b.bottom = (if r = range.toCell.row then
            sideOrDefault cfg.bottom createSingleEmptyBorder else createSingleEmptyBorder)
        ∧ b.left = (if c = range.fromCell.col then
            sideOrDefault cfg.left createSingleEmptyBorder else createSingleEmptyBorder)
        ∧ b.right = (if c = range.toCell.col then
            sideOrDefault cfg.right createSingleEmptyBorder else createSingleEmptyBorder)) := by
  constructor
  · intro hint
    rw [prepareRange_meta st cfg range r c hrg, if_neg]
    rintro ⟨-, hb⟩
    rcases hb with h | h | h | h
    · exact hint.1 h
    · exact hint.2.1 h
    · exact hint.2.2.1 h
    · exact hint.2.2.2 h
  · intro hb
    rw [prepareRange_meta st cfg range r c hrg, if_pos ⟨⟨h1, h2, h3, h4⟩, hb⟩]
    exact ⟨(rangeCellBorder cfg range r c).2, rfl,
      rangeCellBorder_top cfg range r c, rangeCellBorder_bottom cfg range r c,
      rangeCellBorder_left cfg range r c, rangeCellBorder_right cfg range r c⟩

/-- Concrete input for the C3 witness: a 3x3 range carrying `top` and
`left`. -/
def c3Config : ConfigEntry :=
  { range := some { fromCell := { row := 0, col := 0 }, toCell := { row := 2, col := 2 } }
    top := some createDefaultCustomBorder
    left := some { width := 2, color := "red", hidden := false } }

/-- Witness for C3 at a concrete 3x3 range with `top` and `left` set:
the corner (0,0) receives both sides, and the interior cell (1,1) is
untouched. -/
theorem C3_witness :
    (∃ b, getCellMeta (prepareBorderFromCustomAddedRange emptyHot c3Config) 0 0 = some b
      ∧ b.top = createDefaultCustomBorder
      ∧ b.left = { width := 2, color := "red", hidden := false })
    ∧ getCellMeta (prepareBorderFromCustomAddedRange emptyHot c3Config) 1 1 =
        getCellMeta emptyHot 1 1 := by
  constructor
  · obtain ⟨b, hb, ht, hbo, hl, hri⟩ :=
      (C3_theorem emptyHot c3Config
        { fromCell := { row := 0, col := 0 }, toCell := { row := 2, col := 2 } } 0 0
        rfl (by decide) (by decide) (by decide) (by decide)).2 (Or.inl rfl)
    refine ⟨b, hb, ?_, ?_⟩
    · rw [ht]; decide
    · rw [hl]; decide
  · exact (C3_theorem emptyHot c3Config
      { fromCell := { row := 0, col := 0 }, toCell := { row := 2, col := 2 } } 1 1
      rfl (by decide) (by decide) (by decide) (by decide)).1 (by decide)

/-- The point path always stores the fresh empty descriptor merged with
the config entry at its cell, whatever was stored before. -/
theorem prepareBorderFromCustomAdded_meta_self (st : HotState) (row col : Nat)
    (cfg : ConfigEntry) :
    getCellMeta (prepareBorderFromCustomAdded st row col cfg) row col =
      some (extendDefaultBorder (createEmptyBorders row col) cfg) := by
  simp only [prepareBorderFromCustomAdded]
  rw [getCellMeta, insertBorderIntoSettings_meta, ← getCellMeta, getCellMeta_setCellMeta_self]

/-- Concrete inputs for claim C4: first give (1,1) a visible left
border, then apply a point entry that mentions only `top`. -/
def c4First : ConfigEntry :=
  { row := 1, col := 1, left := some { width := 2, color := "red", hidden := false } }

def c4Second : ConfigEntry :=
  { row := 1, col := 1, top := some createDefaultCustomBorder }

/-- C4 counterexample: cell (1,1) holds a visible left border; applying
a point entry that sets only `top` resets the unmentioned left side to
the hidden style instead of leaving it unchanged from the prior stored
state — the point path builds from a fresh empty descriptor and never
reads the prior descriptor. -/
theorem C4_counterexample :
    ((getCellMeta (prepareBorderFromCustomAdded emptyHot 1 1 c4First) 1 1).map Border.left =
      some { width := 2, color := "red", hidden := false })
    ∧ ((getCellMeta (prepareBorderFromCustomAdded
          (prepareBorderFromCustomAdded emptyHot 1 1 c4First) 1 1 c4Second) 1 1).map
        Border.left = some createSingleEmptyBorder) := by
  decide

/-- C4 (amended): applying a point configuration entry stores a
descriptor whose mentioned sides carry the given styles and whose
unmentioned sides are reset to the hidden empty style; the cell's prior
stored state is not consulted (the result is identical for any two
prior states). -/
theorem C4_amended (st st2 : HotState) (row col : Nat) (cfg : ConfigEntry) :
    getCellMeta (prepareBorderFromCustomAdded st row col cfg) row col =
      some { createEmptyBorders row col with
        top := cfg.top.getD createSingleEmptyBorder
        bottom := cfg.bottom.getD createSingleEmptyBorder
        left := cfg.left.getD createSingleEmptyBorder
        right := cfg.right.getD createSingleEmptyBorder }
    ∧ getCellMeta (prepareBorderFromCustomAdded st row col cfg) row col =
      getCellMeta (prepareBorderFromCustomAdded st2 row col cfg) row col := by
  constructor
  · rw [prepareBorderFromCustomAdded_meta_self]
    simp [extendDefaultBorder, createEmptyBorders]
  · rw [prepareBorderFromCustomAdded_meta_self, prepareBorderFromCustomAdded_meta_self]

/-- Concrete input for claim C5: annotate (0,0), with one border
decoration node for it in the DOM. -/
def c5Config : ConfigEntry :=
  { row := 0, col := 0, top := some createDefaultCustomBorder }

def c5Start : HotState :=
  prepareBorderFromCustomAdded { emptyHot with borderDivs := [createClassName 0 0] }
    0 0 c5Config

/-- C5 counterexample: after annotating (0,0) — one overlay entry, one
DOM decoration node — the no-borders action removes the metadata entry
and the DOM node but leaves the overlay registry entry in place
(`removeAllBorders` never touches the selections list), contradicting
the claim that the overlay entry is removed. -/
theorem C5_counterexample :
    (c5Start.selections.length = 1)
    ∧ ((removeAllBorders c5Start 0 0).selections.length = 1)
    ∧ (getCellMeta (removeAllBorders c5Start 0 0) 0 0 = none)
    ∧ ((removeAllBorders c5Start 0 0).borderDivs = []) := by
  decide

/-- C5 (amended): the no-borders action on a cell removes the cell's
`borders` metadata entry (a subsequent read returns none, not an
all-hidden descriptor) and removes the cell's border DOM nodes, but the
cell's overlay-registry entry is left untouched. -/
theorem C5_amended (st : HotState) (row col : Nat) :
    getCellMeta (removeAllBorders st row col) row col = none
    ∧ (removeAllBorders st row col).selections = st.selections
    ∧ (removeAllBorders st row col).borderDivs =
        st.borderDivs.filter (fun cn => cn ≠ createClassName row col) := by
  refine ⟨?_, rfl, rfl⟩
  simp [removeAllBorders, removeCellMeta, removeBordersFromDom, getCellMeta]

/-- Concrete input for claim C6: the multi-cell range (0,0)-(0,1). -/
def c6Range : RangeSpec :=
  { fromCell := { row := 0, col := 0 }, toCell := { row := 0, col := 1 } }

/-- C6 counterexample: the range action `top` on the two-cell range
(0,0)-(0,1) issues two render requests — one inside each per-cell
`setBorder` call — not one per operation as the claim states. -/
theorem C6_counterexample :
    countRender (prepareBorder emptyHot c6Range "top" false).events = 2 := by
  decide

/-- C6 (amended): within one declarative-configuration application all
per-cell metadata writes and overlay insertions complete before any
redraw request, and exactly one render (followed by one forced draw) is
issued at the end; within one multi-cell range side action (`top`,
`bottom`, `left` or `right`), however, the redraw is issued inside each
per-cell `setBorder` call — once per touched cell (one per column of
the range for `top`/`bottom`, one per row for `left`/`right`) — not
once per operation, and the multi-cell `noBorders` action issues no
redraw at all. -/
theorem C6_amended (st : HotState) (l : List ConfigEntry) (range : RangeSpec) (remove : Bool)
    (hmulti : ¬(range.fromCell.row = range.toCell.row ∧
      range.fromCell.col = range.toCell.col)) :
    (∃ body, (createCustomBorders st l).events =
        st.events ++ body ++ [Event.render, Event.draw]
      ∧ Event.render ∉ body ∧ Event.draw ∉ body)
    ∧ countRender (prepareBorder st range "top" remove).events =
        countRender st.events + (range.toCell.col + 1 - range.fromCell.col)
    ∧ countRender (prepareBorder st range "bottom" remove).events =
        countRender st.events + (range.toCell.col + 1 - range.fromCell.col)
    ∧ countRender (prepareBorder st range "left" remove).events =
        countRender st.events + (range.toCell.row + 1 - range.fromCell.row)
    ∧ countRender (prepareBorder st range "right" remove).events =
        countRender st.events + (range.toCell.row + 1 - range.fromCell.row)
    ∧ countRender (prepareBorder st range "noBorders" remove).events =
        countRender st.events := by
  refine ⟨?_, ?_, ?_, ?_, ?_, ?_⟩
  · obtain ⟨e, he, hr, hd⟩ := createCustomBorders_body_events st l
    refine ⟨e, ?_, hr, hd⟩
    simp only [createCustomBorders, wtDraw, render]
    rw [he]
    simp
  · rw [prepareBorder_top_multi st range remove hmulti,
      foldl_countRender _ _ st
        (fun s x _ => countRender_setBorder s range.fromCell.row x "top" remove),
      length_jsRange]
  · rw [prepareBorder_bottom_multi st range remove hmulti,
      foldl_countRender _ _ st
        (fun s x _ => countRender_setBorder s range.toCell.row x "bottom" false),
      length_jsRange]
  · rw [prepareBorder_left_multi st range remove hmulti,
      foldl_countRender _ _ st
        (fun s x _ => countRender_setBorder s x range.fromCell.col "left" false),
      length_jsRange]
  · rw [prepareBorder_right_multi st range remove hmulti,
      foldl_countRender _ _ st
        (fun s x _ => countRender_setBorder s x range.toCell.col "right" false),
      length_jsRange]
  · rw [prepareBorder_noBorders_multi st range remove hmulti]
    refine foldl_g_preserve (fun s => countRender s.events) _ _ st (fun s1 colIndex _ => ?_)
    refine foldl_g_preserve (fun s => countRender s.events) _ _ s1 (fun s2 rowIndex _ => ?_)
    exact countRender_removeAllBorders s2 rowIndex colIndex

/-- Witness for C6 (amended) at the concrete two-cell range
(0,0)-(0,1) and the empty configuration list. -/
theorem C6_witness :
    (∃ body, (createCustomBorders emptyHot []).events =
        emptyHot.events ++ body ++ [Event.render, Event.draw]
      ∧ Event.render ∉ body ∧ Event.draw ∉ body)
    ∧ countRender (prepareBorder emptyHot c6Range "top" false).events =
        countRender emptyHot.events + (c6Range.toCell.col + 1 - c6Range.fromCell.col)
    ∧ countRender (prepareBorder emptyHot c6Range "bottom" false).events =
        countRender emptyHot.events + (c6Range.toCell.col + 1 - c6Range.fromCell.col)
    ∧ countRender (prepareBorder emptyHot c6Range "left" false).events =
        countRender emptyHot.events + (c6Range.toCell.row + 1 - c6Range.fromCell.row)
    ∧ countRender (prepareBorder emptyHot c6Range "right" false).events =
        countRender emptyHot.events + (c6Range.toCell.row + 1 - c6Range.fromCell.row)
    ∧ countRender (prepareBorder emptyHot c6Range "noBorders" false).events =
        countRender emptyHot.events :=
  C6_amended emptyHot [] c6Range false (by decide)

/-- C7: settings reconciliation remembers every list-valued
configuration in `savedSettings`; a later non-list truthy sentinel
re-applies the remembered list when one exists — producing exactly the
state the list configuration itself would produce — and only applies
the sentinel as-is (a bare render and draw after the blanket purge, as
iterating a non-array runs zero times) when no list was ever saved. -/
theorem C7_theorem (st : HotState) (l : List ConfigEntry) :
    ((setsBordersSettings st (CustomBordersSetting.list l)).savedSettings = some l)
    ∧ (st.savedSettings = some l →
      setsBordersSettings st CustomBordersSetting.sentinel =
        setsBordersSettings st (CustomBordersSetting.list l))
    ∧ (st.savedSettings = none →
      setsBordersSettings st CustomBordersSetting.sentinel =
        wtDraw (render (purgeTableBorders st))) := by
  refine ⟨?_, ?_, ?_⟩
  · show (createCustomBorders
      { purgeTableBorders st with savedSettings := some l } l).savedSettings = some l
    rw [createCustomBorders_savedSettings]
  · intro hs
    have hps : (purgeTableBorders st).savedSettings = some l := by
      rw [purgeTableBorders_savedSettings]; exact hs
    show (match (purgeTableBorders st).savedSettings with
      | some saved => createCustomBorders (purgeTableBorders st) saved
      | none => wtDraw (render (purgeTableBorders st))) =
      createCustomBorders { purgeTableBorders st with savedSettings := some l } l
    rw [hps, hotState_set_savedSettings (purgeTableBorders st) (some l) hps]
  · intro hs
    have hps : (purgeTableBorders st).savedSettings = none := by
      rw [purgeTableBorders_savedSettings]; exact hs
    show (match (purgeTableBorders st).savedSettings with
      | some saved => createCustomBorders (purgeTableBorders st) saved
      | none => wtDraw (render (purgeTableBorders st))) =
      wtDraw (render (purgeTableBorders st))
    rw [hps]

/-- Concrete input for the C7 witness. -/
def c7Entry : ConfigEntry :=
  { row := 0, col := 0, top := some createDefaultCustomBorder }

/-- Witness for C7 at concrete states: with `[c7Entry]` saved, the
sentinel reproduces exactly the list application; with nothing saved,
the sentinel only purges, renders and draws. -/
theorem C7_witness :
    (setsBordersSettings { emptyHot with savedSettings := some [c7Entry] }
        CustomBordersSetting.sentinel =
      setsBordersSettings { emptyHot with savedSettings := some [c7Entry] }
        (CustomBordersSetting.list [c7Entry]))
    ∧ (setsBordersSettings emptyHot CustomBordersSetting.sentinel =
      wtDraw (render (purgeTableBorders emptyHot))) :=
  ⟨(C7_theorem { emptyHot with savedSettings := some [c7Entry] } [c7Entry]).2.1 rfl,
    (C7_theorem emptyHot [c7Entry]).2.2 rfl⟩

/-- Concrete input for claim C8: the multi-cell range (0,0)-(1,1). -/
def c8Range : RangeSpec :=
  { fromCell := { row := 0, col := 0 }, toCell := { row := 1, col := 1 } }

/-- C8: in multi-cell range application the `clear` flag is forwarded
to the per-cell call only for the `top` action — the touched cells' top
side becomes hidden when the flag is set and the default visible style
otherwise — while for `left`, `right` and `bottom` the source passes no
flag (JS undefined, falsy), so the result is the same whatever the flag
was: a non-clearing add. -/
theorem C8_theorem (st : HotState) (range : RangeSpec) (remove : Bool) (c : Nat)
    (hmulti : ¬(range.fromCell.row = range.toCell.row ∧
      range.fromCell.col = range.toCell.col))
    (hc1 : range.fromCell.col ≤ c) (hc2 : c ≤ range.toCell.col) :
    ((getCellMeta (prepareBorder st range "top" remove) range.fromCell.row c).map
        Border.top =
      some (if remove then createSingleEmptyBorder else createDefaultCustomBorder))
    ∧ prepareBorder st range "left" remove = prepareBorder st range "left" false
    ∧ prepareBorder st range "right" remove = prepareBorder st range "right" false
    ∧ prepareBorder st range "bottom" remove = prepareBorder st range "bottom" false := by
  refine ⟨?_, ?_, ?_, ?_⟩
  · rw [prepareBorder_top_multi st range remove hmulti]
    refine foldl_g_once (fun s => (getCellMeta s range.fromCell.row c).map Border.top)
      _ _ st c _ ((mem_jsRange _ _ _).mpr ⟨hc1, hc2⟩)
      (fun s => setBorder_top_self s range.fromCell.row c remove)
      (fun s y _ hy => ?_)
    show (getCellMeta (setBorder s range.fromCell.row y "top" remove)
      range.fromCell.row c).map Border.top = _
    rw [setBorder_meta_other _ _ _ _ _ _ _ (fun hc' => hy hc'.2.symm)]
  · rw [prepareBorder_left_multi st range remove hmulti,
      prepareBorder_left_multi st range false hmulti]
  · rw [prepareBorder_right_multi st range remove hmulti,
      prepareBorder_right_multi st range false hmulti]
  · rw [prepareBorder_bottom_multi st range remove hmulti,
      prepareBorder_bottom_multi st range false hmulti]

/-- Witness for C8 at the concrete range (0,0)-(1,1) with the flag set:
the top action clears the top side; the left action ignores the flag. -/
theorem C8_witness :
    ((getCellMeta (prepareBorder emptyHot c8Range "top" true) c8Range.fromCell.row 0).map
        Border.top = some (if true then createSingleEmptyBorder else createDefaultCustomBorder))
    ∧ prepareBorder emptyHot c8Range "left" true = prepareBorder emptyHot c8Range "left" false :=
  ⟨(C8_theorem emptyHot c8Range true 0 (by decide) (by decide) (by decide)).1,
    (C8_theorem emptyHot c8Range true 0 (by decide) (by decide) (by decide)).2.1⟩

/-- Concrete inputs for claim C9: a single-cell and a multi-cell
range. -/
def c9SingleRange : RangeSpec :=
  { fromCell := { row := 0, col := 0 }, toCell := { row := 0, col := 0 } }

def c9MultiRange : RangeSpec :=
  { fromCell := { row := 0, col := 0 }, toCell := { row := 1, col := 1 } }

/-- C9 counterexample: on a single-cell range the unrecognized action
`diagonal` is not a no-op — the cell gets a metadata entry written (the
single-cell branch routes every non-noBorders action to `setBorder`),
the overlay registry gains an entry, and a render is requested. -/
theorem C9_counterexample :
    (getCellMeta (prepareBorder emptyHot c9SingleRange "diagonal" false) 0 0).isSome = true
    ∧ (prepareBorder emptyHot c9SingleRange "diagonal" false).selections.length = 1
    ∧ countRender (prepareBorder emptyHot c9SingleRange "diagonal" false).events = 1 := by
  decide

/-- C9 (amended): an action value that is none of top, bottom, left,
right, noBorders is a no-op only on multi-cell ranges (the switch's
default case); on a single-cell range every non-noBorders action —
recognized or not — is routed to the per-cell `setBorder` call, which
writes a metadata entry for the cell and issues a render. -/
theorem C9_amended (st : HotState) (range : RangeSpec) (place : String) (remove : Bool)
    (h1 : place ≠ "noBorders") (h2 : place ≠ "top") (h3 : place ≠ "right")
    (h4 : place ≠ "bottom") (h5 : place ≠ "left") :
    (¬(range.fromCell.row = range.toCell.row ∧ range.fromCell.col = range.toCell.col) →
      prepareBorder st range place remove = st)
    ∧ (range.fromCell.row = range.toCell.row ∧ range.fromCell.col = range.toCell.col →
      (getCellMeta (prepareBorder st range place remove)
          range.fromCell.row range.fromCell.col).isSome = true
      ∧ countRender (prepareBorder st range place remove).events =
          countRender st.events + 1) := by
  constructor
  · intro hmulti
    unfold prepareBorder
    rw [if_neg hmulti, if_neg h1, if_neg h2, if_neg h3, if_neg h4, if_neg h5]
  · intro hsingle
    unfold prepareBorder
    rw [if_pos hsingle, if_neg h1]
    constructor
    · rw [setBorder_meta_self]
      rfl
    · exact countRender_setBorder st range.fromCell.row range.fromCell.col place remove

/-- Witness for C9 (amended) at the unrecognized action `diagonal`: a
no-op on the multi-cell range, a metadata write and a render on the
single-cell range. -/
theorem C9_witness :
    (prepareBorder emptyHot c9MultiRange "diagonal" false = emptyHot)
    ∧ ((getCellMeta (prepareBorder emptyHot c9SingleRange "diagonal" false)
          c9SingleRange.fromCell.row c9SingleRange.fromCell.col).isSome = true
      ∧ countRender (prepareBorder emptyHot c9SingleRange "diagonal" false).events =
          countRender emptyHot.events + 1) :=
  ⟨(C9_amended emptyHot c9MultiRange "diagonal" false (by decide) (by decide) (by decide)
      (by decide) (by decide)).1 (by decide),
    (C9_amended emptyHot c9SingleRange "diagonal" false (by decide) (by decide) (by decide)
      (by decide) (by decide)).2 (by decide)⟩

/-- C10: on every settings-reconciliation run the blanket DOM purge of
border-prefixed class names executes unconditionally — the resulting
DOM is the purged DOM whatever the configuration value is, including
absent-or-false — and in the falsy case the operation performs nothing
else: no cell metadata write, no overlay insertion, no change to
`savedSettings`. -/
theorem C10_theorem (st : HotState) (cfg : CustomBordersSetting) :
    ((setsBordersSettings st cfg).borderDivs = (purgeTableBorders st).borderDivs)
    ∧ setsBordersSettings st CustomBordersSetting.absent = purgeTableBorders st
    ∧ (setsBordersSettings st CustomBordersSetting.absent).meta = st.meta
    ∧ (setsBordersSettings st CustomBordersSetting.absent).selections = st.selections
    ∧ (setsBordersSettings st CustomBordersSetting.absent).savedSettings =
        st.savedSettings := by
  refine ⟨?_, rfl, purgeTableBorders_meta st, purgeTableBorders_selections st,
    purgeTableBorders_savedSettings st⟩
  cases cfg with
  | absent => rfl
  | list entries =>
    show (createCustomBorders
      { purgeTableBorders st with savedSettings := some entries } entries).borderDivs =
      (purgeTableBorders st).borderDivs
    rw [createCustomBorders_borderDivs]
  | sentinel =>
    show (match (purgeTableBorders st).savedSettings with
      | some saved => createCustomBorders (purgeTableBorders st) saved
      | none => wtDraw (render (purgeTableBorders st))).borderDivs =
      (purgeTableBorders st).borderDivs
    cases (purgeTableBorders st).savedSettings with
    | some saved => exact createCustomBorders_borderDivs _ saved
    | none => rfl
